import Mathlib

/-!
Verification of the `ProductScraper` extraction pipeline (`scraper.py`).

The Python source is shallowly embedded: DOM nodes become explicit
structures carrying exactly the pieces of markup the scraper reads,
`try/except` recovery becomes `Option`/explicit defaulting, an uncaught
Python exception becomes `Except.error`, and the regular expression of
`extract_size` becomes an explicit backtracking-free matcher (for this
pattern, greedy possessive matching coincides with Python's backtracking
search; characters are modelled at ASCII granularity, matching every
input the scraper meets).
-/

namespace Scraper

/-! ### Python string primitives -/

/-- Python `str.strip()` whitespace class (ASCII model of `\s`). -/
def isPySpace (c : Char) : Bool :=
  c = ' ' || c = '\t' || c = '\n' || c = '\r' || c = Char.ofNat 11 || c = Char.ofNat 12

/-- Drop matching characters from the left (Python `lstrip`). -/
def trimLeftBy (p : Char → Bool) (l : List Char) : List Char :=
  l.dropWhile p

/-- Drop matching characters from the right (Python `rstrip`). -/
def trimRightBy (p : Char → Bool) (l : List Char) : List Char :=
  (l.reverse.dropWhile p).reverse

/-- Python `str.strip(chars)` on a character list. -/
def trimBy (p : Char → Bool) (l : List Char) : List Char :=
  trimRightBy p (trimLeftBy p l)

/-- Python `str.strip()` — also the normalization done by
`get_text(strip=True)` on a single text node. -/
def pyStrip (s : String) : String :=
  ⟨trimBy isPySpace s.data⟩

/-- Python `collapse_id.strip('#')` from `extract_locations`. -/
def stripHash (s : String) : String :=
  ⟨trimBy (fun c => c = '#') s.data⟩

/-- Python `.replace('&nbsp;', '')`: remove every occurrence of the
six-character literal `&nbsp;`, scanning left to right. -/
def stripNbsp : List Char → List Char
  | [] => []
  | '&' :: 'n' :: 'b' :: 's' :: 'p' :: ';' :: rest => stripNbsp rest
  | c :: cs => c :: stripNbsp cs

/-- Test whether `pat` begins the list `l` (used to model Python substring search). -/
def listStartsWith : List Char → List Char → Bool
  | [], _ => true
  | _ :: _, [] => false
  | a :: as, b :: bs => a = b && listStartsWith as bs

/-- Test whether `pat` occurs somewhere in `l`. -/
def containsAux (pat : List Char) : List Char → Bool
  | [] => pat.isEmpty
  | c :: cs => listStartsWith pat (c :: cs) || containsAux pat cs

/-- Python `pat in hay` on strings (also literal-regex `re.search`). -/
def strContains (hay pat : String) : Bool :=
  containsAux pat.data hay.data

/-- Python `list.index` (first occurrence; callers guard membership). -/
def listIndexOf (a : String) : List String → Nat
  | [] => 0
  | b :: bs => if b = a then 0 else 1 + listIndexOf a bs

/-- Python `str.lower()` (ASCII model; every label met is ASCII). -/
def toLowerChar (c : Char) : Char :=
  if 'A' ≤ c && c ≤ 'Z' then Char.ofNat (c.toNat + 32) else c

/-- Python `str.lower()` on a whole string. -/
def strToLower (s : String) : String :=
  ⟨s.data.map toLowerChar⟩

/-- Fuel-driven core of `lastSegment`: consume through each separator
occurrence, left to right and non-overlapping, and return what follows
the last one. -/
def lastSegmentFuel (sep : List Char) : Nat → List Char → List Char
  | 0, l => l
  | _ + 1, [] => []
  | n + 1, c :: cs =>
    if listStartsWith sep (c :: cs) && !sep.isEmpty then
      lastSegmentFuel sep n ((c :: cs).drop sep.length)
    else if containsAux sep cs then lastSegmentFuel sep n cs
    else c :: cs

/-- Python `s.split(sep)[-1]`: the text after the last occurrence of
`sep`, or all of `s` when `sep` does not occur. -/
def lastSegment (sep : List Char) (l : List Char) : List Char :=
  lastSegmentFuel sep l.length l

/-! ### DOM node model and the Field Extractor -/

/-- The slice of a BeautifulSoup tag the scraper reads: its `class`
attribute values and the text `get_text` would return before stripping. -/
structure Tag where
  classes : List String
  text : String
  deriving DecidableEq

/-- Source `ProductScraper.extract_text`: `tag.get_text(strip=True) if tag else 'N/A'`. -/
def extract_text : Option Tag → String
  | none => "N/A"
  | some t => pyStrip t.text

/-- BeautifulSoup `class_=re.compile(pat)` with a literal pattern:
true when some class value contains `pat` as a substring. -/
def tagClassMatch (pat : String) (t : Tag) : Bool :=
  t.classes.any fun c => strContains c pat

/-- BeautifulSoup `find(..., class_=re.compile(pat))` over candidate tags. -/
def findFirstClass (pat : String) (tags : List Tag) : Option Tag :=
  (tags.filter (tagClassMatch pat)).head?

/-! ### The Size Parser (`extract_size`)

Regex `(\d+(\.\d+)?)\s*[\"\'“”]?\s*[Xx]\s*(\d+(\.\d+)?)\s*[\"\'“”]?`
under `re.search`.  The trailing `\s*[\"\'“”]?` always matches the empty
string and captures nothing, so it is omitted.  For this pattern greedy
matching without backtracking is equivalent to Python's engine: after any
character given back by `\d+`, `(\.\d+)?`, `\s*` or the optional quote,
the next mandatory item (`[Xx]` or a digit) can never match. -/

/-- The inch-mark class `[\"\'“”]`. -/
def isQuoteChar (c : Char) : Bool :=
  c = '\"' || c = Char.ofNat 39 || c = '“' || c = '”'

/-- A character a captured group may contain. -/
def isNumChar (c : Char) : Bool :=
  c.isDigit || c = '.'

/-- Greedy `\d+`/`\d*`: longest digit prefix and the remainder. -/
def takeDigits : List Char → List Char × List Char
  | [] => ([], [])
  | c :: cs =>
    if c.isDigit then ((c :: (takeDigits cs).1), (takeDigits cs).2)
    else ([], c :: cs)

/-- The optional fractional part `(\.\d+)?` after the integer digits
`nds` and the dot `r`: extend the group only when digits follow. -/
def takeNumberFrac (nds : List Char) (r : Char) (rs : List Char) :
    List Char × List Char → Option (List Char × List Char)
  | ([], _) => some (nds, r :: rs)
  | (f :: fs, rest2) => some (nds ++ (r :: f :: fs), rest2)

/-- Dispatch on the result of the integer-digit scan. -/
def takeNumberAux : List Char × List Char → Option (List Char × List Char)
  | ([], _) => none
  | (d :: ds, []) => some (d :: ds, [])
  | (d :: ds, r :: rs) =>
    if r = '.' then takeNumberFrac (d :: ds) r rs (takeDigits rs)
    else some (d :: ds, r :: rs)

/-- Greedy `\d+(\.\d+)?`: the captured group and the remainder, or
`none` when no digit starts here. -/
def takeNumber (cs : List Char) : Option (List Char × List Char) :=
  takeNumberAux (takeDigits cs)

/-- Greedy `\s*`. -/
def skipSpaces (cs : List Char) : List Char :=
  cs.dropWhile isPySpace

/-- Greedy `[\"\'“”]?`. -/
def skipQuote : List Char → List Char
  | [] => []
  | c :: cs => if isQuoteChar c then cs else c :: cs

/-- The second captured group, after `[Xx]\s*` succeeded with first
group `w`. -/
def matchAfterX (w : List Char) : Option (List Char × List Char) → Option (String × String)
  | none => none
  | some (h, _) => some (⟨w⟩, ⟨h⟩)

/-- The `[Xx]\s*(\d+(\.\d+)?)` tail of the pattern, at the position after
`\s*[\"\'“”]?\s*`. -/
def matchAtX (w : List Char) : List Char → Option (String × String)
  | [] => none
  | x :: r5 =>
    if x = 'x' || x = 'X' then matchAfterX w (takeNumber (skipSpaces r5))
    else none

/-- Dispatch on the result of the first number scan. -/
def matchSizeAtAux : Option (List Char × List Char) → Option (String × String)
  | none => none
  | some (w, r1) => matchAtX w (skipSpaces (skipQuote (skipSpaces r1)))

/-- Attempt the whole pattern at the head of `cs`; on success return the
two captured groups. -/
def matchSizeAt (cs : List Char) : Option (String × String) :=
  matchSizeAtAux (takeNumber cs)

/-- Leftmost-first alternative. -/
def firstSome (a b : Option (String × String)) : Option (String × String) :=
  match a with
  | some r => some r
  | none => b

/-- Python `re.search`: try the pattern at each start position, leftmost first. -/
def searchSize : List Char → Option (String × String)
  | [] => none
  | c :: cs => firstSome (matchSizeAt (c :: cs)) (searchSize cs)

/-- Package the two captured groups, or the absent pair. -/
def sizePairOf : Option (String × String) → Option String × Option String
  | some (w, h) => (some w, some h)
  | none => (none, none)

/-- Source `ProductScraper.extract_size`: `(m.group(1), m.group(3))` on a match,
`(None, None)` otherwise.  Total — the Python `except` arm is dead code. -/
def extract_size (size_text : String) : Option String × Option String :=
  sizePairOf (searchSize size_text.data)

/-! ### Listing Extractor (`parse_listing_page`, `extract_sku`) -/

/-- A product card (`div` with class `col-<n>`): the `a`, `p` and
`strong` descendants `find`/`find_all` would enumerate, in document
order. -/
structure Card where
  anchors : List Tag
  pElems : List Tag
  strongs : List Tag
  deriving DecidableEq

/-- Source `ProductScraper.extract_sku`: the second `p` tag whose class matches
`link-item`, if at least two exist, else `None`; then `extract_text`. -/
def extract_sku (product : Card) : String :=
  let ps := product.pElems.filter (tagClassMatch "link-item")
  extract_text (if 1 < ps.length then ps[1]? else none)

/-- One row produced by the listing extractor. -/
structure ListingRecord where
  productName : String
  productDescription : String
  sku : String
  price : String
  deriving DecidableEq

/-- The `div#productListHolder` root: its `col-\d+` card children. -/
structure ListHolder where
  cards : List Card
  deriving DecidableEq

/-! ### Pricing (`extract_pricing`) -/

/-- A table cell, tagged with whether it is a `th` or a `td`. -/
structure Cell where
  isTh : Bool
  text : String
  deriving DecidableEq

/-- The `table.pricetable` slice the scraper reads: the cells under
`thead` (in document order, possibly spanning rows — `find_all('th')`
flattens them) and the rows under `tbody`, each a list of cells.
`none` components model an absent `thead`/`tbody`. -/
structure PriceTable where
  thead : Option (List Cell)
  tbody : Option (List (List Cell))
  deriving DecidableEq

/-- The dict `{'Quantities': [...], 'Prices': [...]}`. -/
structure Pricing where
  quantities : List String
  prices : List String
  deriving DecidableEq

/-- Python `get_text(strip=True).replace('&nbsp;', '')` on one cell. -/
def normCell (c : Cell) : String :=
  ⟨stripNbsp (trimBy isPySpace c.text.data)⟩

/-- Source `ProductScraper.extract_pricing`.  A missing table yields the empty
pricing; a missing `thead`, missing `tbody` or row-less `tbody` raises
`AttributeError` in Python, which the `except` arm turns into the empty
pricing (discarding any quantities already computed).  Quantities are the
`thead`'s `th` cells minus the first; prices are the `th` cells of the
first `tbody` row — the first one is NOT skipped, despite the comment in
the source. -/
def extract_pricing (pricing_table : Option PriceTable) : Pricing :=
  match pricing_table with
  | none => ⟨[], []⟩
  | some t =>
    match t.thead with
    | none => ⟨[], []⟩
    | some hd =>
      match t.tbody with
      | none => ⟨[], []⟩
      | some rows =>
        match rows.head? with
        | none => ⟨[], []⟩
        | some row =>
          ⟨((hd.filter fun c => c.isTh).drop 1).map normCell,
           (row.filter fun c => c.isTh).map normCell⟩

/-! ### Imprint locations (`extract_locations`, `extract_imprint_areas`) -/

/-- One table inside a collapse panel: the texts of all its `th` cells
(document order — the header-index scan of the source), and for every
`tr`, the texts of that row's `td` cells. -/
structure LocTable where
  headers : List String
  rows : List (List String)
  deriving DecidableEq

/-- A collapse panel (`div#collapse<N>`): its tables in document order. -/
structure CollapseSection where
  tables : List LocTable
  deriving DecidableEq

/-- A retained imprint location. -/
structure Location where
  location : String
  width : String
  height : String
  deriving DecidableEq

/-- The Python truthiness gate `if width and height:` on the Size
Parser's result: build the location entry only when both groups are
present and non-empty. -/
def mkLocIfParsed (location_name : String) :
    Option String × Option String → Option Location
  | (some w, some h) =>
    if w = "" ∨ h = "" then none else some ⟨location_name, w, h⟩
  | _ => none

/-- The body of the per-row loop in `extract_locations`: `None` exactly
when the row is skipped (too few columns, or the size cell fails the
Size Parser / yields an empty group). -/
def rowLoc (location_index size_index : Nat) (row : List String) : Option Location :=
  if max location_index size_index < row.length then
    mkLocIfParsed (extract_text (some ⟨[], row.getD location_index ""⟩))
      (extract_size (extract_text (some ⟨[], row.getD size_index ""⟩)))
  else none

/-- Placeholder for the (guarded, never reached) out-of-range table read. -/
def locTableEmpty : LocTable := ⟨[], []⟩

/-- A `button` inside a heading: its tag and its `data-target` attribute
(`get('data-target', '')` default). -/
structure Button where
  tag : Tag
  dataTarget : String
  deriving DecidableEq

/-- A `div#heading<N>` panel header. -/
structure Heading where
  button : Option Button
  deriving DecidableEq

/-- The `div#printMethods` section: its `heading<N>` children in document
order and its collapse panels keyed by `id`. -/
structure PrintMethods where
  headings : List Heading
  collapses : List (String × CollapseSection)
  deriving DecidableEq

/-- Source `imprint_areas_section.find('div', id=...)`. -/
def lookupCollapse : List (String × CollapseSection) → String → Option CollapseSection
  | [], _ => none
  | (i, s) :: rest, key => if i = key then some s else lookupCollapse rest key

/-- Source `ProductScraper.extract_locations`: resolve the panel, require at
least three tables, take the third, locate the `location`/`size` header
columns, and keep a data row only when the Size Parser succeeds on its
size cell. -/
def extract_locations (pm : PrintMethods) (collapse_id : String) : List Location :=
  match lookupCollapse pm.collapses (stripHash collapse_id) with
  | none => []
  | some sec =>
    if sec.tables.length < 3 then []
    else
      let t := sec.tables.getD 2 locTableEmpty
      let headers := t.headers.map fun x => strToLower (pyStrip x)
      if headers.contains "location" && headers.contains "size" then
        (t.rows.drop 1).filterMap
          (rowLoc (listIndexOf "location" headers) (listIndexOf "size" headers))
      else []

/-- The dict `{'Method': ..., 'Locations': [...]}`. -/
structure ImprintMethod where
  method : String
  locations : List Location
  deriving DecidableEq

/-! ### Detail page -/

/-- The `div#productDetail` slice the scraper reads. -/
structure DetailSection where
  skuP : Option Tag
  sizeH5 : Option Tag
  sizeSibling : Option String
  priceTable : Option PriceTable
  deriving DecidableEq

/-- The whole parsed page. -/
structure Page where
  listHolder : Option ListHolder
  productDetail : Option DetailSection
  printMethods : Option PrintMethods
  deriving DecidableEq

/-- Source `ProductScraper.parse_listing_page`: empty when the root is absent
(the raised `ValueError` is caught), else one record per card. -/
def parse_listing_page (page : Page) : List ListingRecord :=
  match page.listHolder with
  | none => []
  | some lh =>
    lh.cards.map fun product =>
      ⟨extract_text (findFirstClass "link-item" product.anchors),
       extract_text (findFirstClass "link-item" product.pElems),
       extract_sku product,
       extract_text (findFirstClass "currency" product.strongs)⟩

/-- Source `ProductScraper.extract_sku_detail`: everything after `Item ID:` in
the stripped text, itself stripped; `N/A` when the tag or label is
absent. -/
def extract_sku_detail (product_detail : DetailSection) : String :=
  match product_detail.skuP with
  | none => "N/A"
  | some t =>
    if strContains t.text "Item ID:" then
      pyStrip ⟨lastSegment "Item ID:".data (pyStrip t.text).data⟩
    else "N/A"

/-- Source `ProductScraper.extract_item_size`: the stripped next-sibling text of
the `h5` reading `Size:`; a missing sibling raises `AttributeError`,
caught into `N/A`. -/
def extract_item_size (product_detail : DetailSection) : String :=
  match product_detail.sizeH5 with
  | none => "N/A"
  | some _ =>
    match product_detail.sizeSibling with
    | none => "N/A"
    | some s => pyStrip s

/-- Source `ProductScraper.extract_imprint_areas`: one entry per `heading<N>`
child; the method name is the button's text through `extract_text`; a
missing button or falsy (empty) `data-target` leaves the locations
empty. -/
def extract_imprint_areas (page : Page) : List ImprintMethod :=
  match page.printMethods with
  | none => []
  | some pm =>
    pm.headings.map fun hd =>
      match hd.button with
      | none => ⟨extract_text none, []⟩
      | some b =>
        if b.dataTarget = "" then ⟨extract_text (some b.tag), []⟩
        else ⟨extract_text (some b.tag), extract_locations pm b.dataTarget⟩

/-- The detail dict: Python's `{}` on failure, all four keys on success;
`none` models an absent key. -/
structure DetailDict where
  sku : Option String
  itemSize : Option String
  imprintAreas : Option (List ImprintMethod)
  pricing : Option Pricing
  deriving DecidableEq

/-- The `{}` returned when `div#productDetail` is missing. -/
def emptyDict : DetailDict := ⟨none, none, none, none⟩

/-- Source `ProductScraper.parse_detail_page`. -/
def parse_detail_page (page : Page) : DetailDict :=
  match page.productDetail with
  | none => emptyDict
  | some d =>
    ⟨some (extract_sku_detail d),
     some (extract_item_size d),
     some (extract_imprint_areas page),
     some (extract_pricing d.priceTable)⟩

/-! ### Tabular Writer and the run (`save_to_csv`, `display_data`, `scrape`)

Python dictionary subscripts (`product['Pricing']`, `data[0]`) can raise
`KeyError`/`IndexError`; an uncaught exception is `Except.error` with the
exception text. -/

/-- One flattened output row of the detail CSV: the six fixed columns and
the quantity-tier cells produced by `zip(quantities, prices)`. -/
structure DetailRow where
  sku : String
  itemSize : String
  method : String
  location : String
  width : String
  height : String
  priceCells : List (String × String)
  deriving DecidableEq

/-- The nested row loop of `save_to_csv`'s detail branch: one row per
(method, location) pair, in loop order. -/
def flattenDetail (sku itemSize : String) (p : Pricing) :
    List ImprintMethod → List DetailRow
  | [] => []
  | a :: as =>
    a.locations.map
      (fun l => ⟨sku, itemSize, a.method, l.location, l.width, l.height,
                 p.quantities.zip p.prices⟩)
      ++ flattenDetail sku itemSize p as

/-- Row production for one product dict: `product['Imprint Areas']` and
`product['Pricing']` are direct subscripts and raise on the empty dict;
`SKU`/`Item Size` go through `.get(..., 'N/A')`. -/
def detail_rows_of (d : DetailDict) : Except String (List DetailRow) :=
  match d.imprintAreas with
  | none => Except.error "KeyError: Imprint Areas"
  | some areas =>
    match d.pricing with
    | none => Except.error "KeyError: Pricing"
    | some p =>
      Except.ok (flattenDetail (d.sku.getD "N/A") (d.itemSize.getD "N/A") p areas)

/-- The detail branch of `save_to_csv` up to the `DataFrame` call: the
column list reads `data[0]['Pricing']['Quantities']` (raising on an empty
list or dict), then every product is flattened. -/
def save_to_csv_detail (data : List DetailDict) :
    Except String (List String × List DetailRow) :=
  match data.head? with
  | none => Except.error "IndexError: list index out of range"
  | some d0 =>
    match d0.pricing with
    | none => Except.error "KeyError: Pricing"
    | some p0 =>
      let columns :=
        ["SKU", "Item Size", "Method", "Location", "Width", "Height"] ++ p0.quantities
      match (data.mapM detail_rows_of) with
      | Except.error e => Except.error e
      | Except.ok rss => Except.ok (columns, rss.flatten)

/-- The file-append step of `save_to_csv` (`df.to_csv`): a fresh or empty
file gets the header then the rows, anything else gets the rows
appended.  `none` is a nonexistent file. -/
def save_csv_write {Row : Type} (file : Option (List Row)) (header : Row)
    (rows : List Row) : List Row :=
  match file with
  | none => header :: rows
  | some content => if content.isEmpty then header :: rows else content ++ rows

/-- Iterated runs of the writer against the same path. -/
def writeBatches {Row : Type} (header : Row) :
    List (List Row) → Option (List Row) → Option (List Row)
  | [], file => file
  | b :: bs, file => writeBatches header bs (some (save_csv_write file header b))

/-- The detail branch of `display_data` for one product: the printed
lines, or the uncaught `KeyError` from `product['Pricing']`.  `SKU`,
`Item Size` and `Imprint Areas` go through `.get` with defaults. -/
def display_detail_record (d : DetailDict) : Except String (List String) :=
  let areaLines := (d.imprintAreas.getD []).map fun a => "  Method: " ++ a.method
  match d.pricing with
  | none => Except.error "KeyError: Pricing"
  | some p =>
    Except.ok
      (["SKU: " ++ d.sku.getD "N/A", "Item Size: " ++ d.itemSize.getD "N/A",
        "Imprint Areas:"] ++ areaLines ++ ["Pricing:"] ++
       (p.quantities.zip p.prices).map fun qp => "  " ++ qp.1 ++ ": " ++ qp.2)

/-- What the classify-and-extract phase accumulated in `products_data`. -/
inductive ScrapeData where
  | listing : List ListingRecord → ScrapeData
  | detail : DetailDict → ScrapeData
  deriving DecidableEq

/-- What a completed run persisted. -/
inductive SavedRows where
  | listing : List ListingRecord → SavedRows
  | detail : List DetailRow → SavedRows
  deriving DecidableEq

/-- The branch of `scrape` after parsing: the listing marker alone
decides the page type and which extractor runs. -/
def classifyAndExtract (page : Page) : String × ScrapeData :=
  if page.listHolder.isSome then ("list", ScrapeData.listing (parse_listing_page page))
  else ("detail", ScrapeData.detail (parse_detail_page page))

/-- Run `display_data` then `save_to_csv` on the accumulated data.  The
listing branches never raise (every access is `.get` with a default and
the `DataFrame` accepts any dicts); the detail branches may. -/
def scrapeAfterFetch (page : Page) : Except String (String × SavedRows) :=
  match classifyAndExtract page with
  | (pt, ScrapeData.listing prods) => Except.ok (pt, SavedRows.listing prods)
  | (pt, ScrapeData.detail d) =>
    match display_detail_record d with
    | Except.error e => Except.error e
    | Except.ok _ =>
      match save_to_csv_detail [d] with
      | Except.error e => Except.error e
      | Except.ok cr => Except.ok (pt, SavedRows.detail cr.2)

/-- Outcome of a whole run. -/
inductive RunOutcome where
  /-- Case `fetch_content` returned `None`: a message is printed and the run
  returns without touching the output file. -/
  | fetchFailed : RunOutcome
  /-- The run displayed and persisted `saved` under `pagetype`. -/
  | finished : (pagetype : String) → (saved : SavedRows) → RunOutcome
  deriving DecidableEq

/-- Source `ProductScraper.scrape`, with the fetch result as input. -/
def scrape (fetched : Option Page) : Except String RunOutcome :=
  match fetched with
  | none => Except.ok RunOutcome.fetchFailed
  | some page =>
    match scrapeAfterFetch page with
    | Except.error e => Except.error e
    | Except.ok r => Except.ok (RunOutcome.finished r.1 r.2)

/-! ### Helper lemmas -/

theorem dropWhile_idem (p : Char → Bool) (l : List Char) :
    (l.dropWhile p).dropWhile p = l.dropWhile p := by
  induction l with
  | nil => rfl
  | cons c cs ih =>
    by_cases hp : p c
    · simpa [List.dropWhile_cons_of_pos hp] using ih
    · simp [List.dropWhile_cons_of_neg hp, hp]

theorem length_dropWhile_le' (p : Char → Bool) (l : List Char) :
    (l.dropWhile p).length ≤ l.length := by
  induction l with
  | nil => simp
  | cons c cs ih =>
    by_cases hp : p c
    · simp only [List.dropWhile_cons_of_pos hp, List.length_cons]
      omega
    · simp [List.dropWhile_cons_of_neg hp]

theorem dropWhile_suffix_decomp (p : Char → Bool) (l : List Char) :
    ∃ t, l = t ++ l.dropWhile p := by
  induction l with
  | nil => exact ⟨[], rfl⟩
  | cons c cs ih =>
    by_cases hp : p c
    · obtain ⟨t, ht⟩ := ih
      exact ⟨c :: t, by simp [List.dropWhile_cons_of_pos hp]; exact ht⟩
    · exact ⟨[], by simp [List.dropWhile_cons_of_neg hp]⟩

theorem trimRightBy_prefix_decomp (p : Char → Bool) (l : List Char) :
    ∃ t, l = trimRightBy p l ++ t := by
  obtain ⟨t, ht⟩ := dropWhile_suffix_decomp p l.reverse
  refine ⟨t.reverse, ?_⟩
  have := congrArg List.reverse ht
  simpa [List.reverse_append, trimRightBy] using this

theorem trimRightBy_idem (p : Char → Bool) (l : List Char) :
    trimRightBy p (trimRightBy p l) = trimRightBy p l := by
  simp [trimRightBy, List.reverse_reverse, dropWhile_idem]

theorem trimLeftBy_eq_self_of_head (p : Char → Bool) (c : Char) (cs : List Char)
    (hc : p c = false) : trimLeftBy p (c :: cs) = c :: cs := by
  have hc' : ¬ p c = true := by simp [hc]
  simp [trimLeftBy, List.dropWhile_cons_of_neg hc']

theorem head_not_p_of_trimLeftBy_fix (p : Char → Bool) (c : Char) (cs : List Char)
    (h : trimLeftBy p (c :: cs) = c :: cs) : p c = false := by
  by_contra hc
  have hc' : p c = true := by revert hc; cases p c <;> simp
  have h1 : (c :: cs).dropWhile p = cs.dropWhile p := List.dropWhile_cons_of_pos hc'
  have h2 : (cs.dropWhile p).length ≤ cs.length := length_dropWhile_le' p cs
  have h3 : (c :: cs).length = cs.length + 1 := rfl
  rw [trimLeftBy, h1] at h
  have := congrArg List.length h
  simp at this
  omega

theorem trimLeftBy_trimRightBy_fix (p : Char → Bool) (l : List Char)
    (h : trimLeftBy p l = l) : trimLeftBy p (trimRightBy p l) = trimRightBy p l := by
  cases l with
  | nil => rfl
  | cons c cs =>
    have hc : p c = false := head_not_p_of_trimLeftBy_fix p c cs h
    obtain ⟨t, ht⟩ := trimRightBy_prefix_decomp p (c :: cs)
    cases hy : trimRightBy p (c :: cs) with
    | nil => rfl
    | cons c2 ys =>
      rw [hy] at ht
      have hce : c = c2 := by
        have h' : c :: cs = c2 :: (ys ++ t) := by simpa using ht
        injection h'
      subst hce
      exact trimLeftBy_eq_self_of_head p c ys hc

theorem trimBy_idem (p : Char → Bool) (l : List Char) :
    trimBy p (trimBy p l) = trimBy p l := by
  unfold trimBy
  rw [trimLeftBy_trimRightBy_fix p (trimLeftBy p l) (dropWhile_idem p l),
      trimRightBy_idem]

theorem pyStrip_idem (s : String) : pyStrip (pyStrip s) = pyStrip s := by
  simp [pyStrip, trimBy_idem]

/-! ### C6: the Field Extractor -/

/-- C6: `extract_text` is total (never raises); an absent node yields the
sentinel `"N/A"`, and a present node yields its stripped text content,
which is indeed fully trimmed (stripping it again changes nothing). -/
theorem c6_field_extractor :
    extract_text none = "N/A" ∧
    ∀ t : Tag, extract_text (some t) = pyStrip t.text ∧
      pyStrip (extract_text (some t)) = extract_text (some t) := by
  refine ⟨rfl, fun t => ⟨rfl, ?_⟩⟩
  simpa using pyStrip_idem t.text

/-! ### C7: the listing SKU rule -/

/-- C7: the SKU of a product card is the stripped text of the second
`link-item` paragraph when at least two such paragraphs exist, and the
sentinel `"N/A"` when zero or one exist. -/
theorem c7_sku_second_field (product : Card) :
    (∀ p0 p1 ps, product.pElems.filter (tagClassMatch "link-item") = p0 :: p1 :: ps →
      extract_sku product = pyStrip p1.text) ∧
    ((product.pElems.filter (tagClassMatch "link-item")).length ≤ 1 →
      extract_sku product = "N/A") := by
  constructor
  · intro p0 p1 ps hf
    simp [extract_sku, hf, extract_text]
  · intro hlen
    have h2 : ¬ 1 < (product.pElems.filter (tagClassMatch "link-item")).length := by omega
    simp [extract_sku, h2, extract_text]

/-- Concrete card whose second `link-item` paragraph carries the SKU. -/
def cardWithSku : Card :=
  ⟨[⟨["link-item"], "Widget"⟩],
   [⟨["link-item"], "desc"⟩, ⟨["link-item-sku"], " SKU-1 "⟩],
   [⟨["currency"], "$5"⟩]⟩

/-- Concrete card with a single `link-item` paragraph. -/
def cardNoSku : Card := ⟨[], [⟨["link-item"], "desc"⟩], []⟩

/-- Witness for C7 at the two concrete cards. -/
theorem c7_sku_second_field_witness :
    extract_sku cardWithSku = pyStrip " SKU-1 " ∧ extract_sku cardNoSku = "N/A" :=
  ⟨(c7_sku_second_field cardWithSku).1 ⟨["link-item"], "desc"⟩
      ⟨["link-item-sku"], " SKU-1 "⟩ [] (by decide),
   (c7_sku_second_field cardNoSku).2 (by decide)⟩

/-! ### C9: classification precedence -/

/-- C9: when the listing-root marker is present — even together with the
detail-root marker — the run is classified `list`, only the listing
extractor's records are accumulated, and the detail section is never
consulted (the outcome is invariant under replacing it). -/
theorem c9_listing_marker_precedence (page : Page) (lh : ListHolder) (d : DetailSection)
    (hl : page.listHolder = some lh) (_hd : page.productDetail = some d) :
    classifyAndExtract page = ("list", ScrapeData.listing (parse_listing_page page)) ∧
    scrapeAfterFetch page =
      Except.ok ("list", SavedRows.listing (parse_listing_page page)) ∧
    ∀ d2 : Option DetailSection,
      classifyAndExtract { page with productDetail := d2 } = classifyAndExtract page := by
  have hsome : page.listHolder.isSome = true := by rw [hl]; rfl
  refine ⟨by simp [classifyAndExtract, hsome], ?_, ?_⟩
  · simp [scrapeAfterFetch, classifyAndExtract, hsome]
  · intro d2
    simp [classifyAndExtract, hsome, parse_listing_page]

/-- Concrete page carrying both root markers. -/
def pageBothMarkers : Page :=
  ⟨some ⟨[cardNoSku]⟩, some ⟨none, none, none, none⟩, none⟩

/-- Witness for C9 at a concrete page with both markers. -/
theorem c9_listing_marker_precedence_witness :
    classifyAndExtract pageBothMarkers =
      ("list", ScrapeData.listing (parse_listing_page pageBothMarkers)) :=
  (c9_listing_marker_precedence pageBothMarkers ⟨[cardNoSku]⟩
    ⟨none, none, none, none⟩ rfl rfl).1

/-! ### C10: prices come only from `th` cells -/

/-- C10: prices are collected exclusively from header-type (`th`) cells
of the first body row, so a first body row made of `td` cells yields an
empty price list while the quantities are extracted as usual. -/
theorem c10_prices_only_th (t : PriceTable) (hd : List Cell) (rows : List (List Cell))
    (row : List Cell) (hth : t.thead = some hd) (htb : t.tbody = some rows)
    (hrow : rows.head? = some row) (htd : ∀ c ∈ row, c.isTh = false) :
    (extract_pricing (some t)).prices = [] ∧
    (extract_pricing (some t)).quantities =
      ((hd.filter fun c => c.isTh).drop 1).map normCell := by
  have hfil : row.filter (fun c => c.isTh) = [] := by
    rw [List.filter_eq_nil_iff]
    intro c hc
    simp [htd c hc]
  constructor <;> simp [extract_pricing, hth, htb, hrow, hfil]

/-- Concrete pricing table whose only body row has `td` cells. -/
def tableTdPrices : PriceTable :=
  ⟨some [⟨true, "Quantity"⟩, ⟨true, "100"⟩, ⟨true, "250"⟩],
   some [[⟨false, "1.00"⟩, ⟨false, "0.90"⟩]]⟩

/-- Witness for C10: quantities non-empty, prices empty. -/
theorem c10_prices_only_th_witness :
    (extract_pricing (some tableTdPrices)).prices = [] ∧
    (extract_pricing (some tableTdPrices)).quantities = ["100", "250"] :=
  ⟨(c10_prices_only_th tableTdPrices
      [⟨true, "Quantity"⟩, ⟨true, "100"⟩, ⟨true, "250"⟩]
      [[⟨false, "1.00"⟩, ⟨false, "0.90"⟩]]
      [⟨false, "1.00"⟩, ⟨false, "0.90"⟩] rfl rfl rfl (by decide)).1,
   by decide⟩

/-! ### C8: append-or-create semantics of the writer -/

theorem flatten_length_uniform {Row : Type} (bs : List (List Row)) (k : Nat)
    (hk : ∀ b ∈ bs, b.length = k) : bs.flatten.length = bs.length * k := by
  induction bs with
  | nil => simp
  | cons b rest ih =>
    have hb : b.length = k := hk b (by simp)
    have hr : ∀ x ∈ rest, x.length = k := fun x hx => hk x (by simp [hx])
    simp [List.flatten_cons, hb, ih hr, Nat.succ_mul, Nat.add_comm]

theorem writeBatches_acc {Row : Type} (header : Row) (bs : List (List Row))
    (l : List Row) (hl : l ≠ []) :
    writeBatches header bs (some l) = some (l ++ bs.flatten) := by
  induction bs generalizing l with
  | nil => simp [writeBatches]
  | cons b rest ih =>
    have hstep : save_csv_write (some l) header b = l ++ b := by
      cases l with
      | nil => exact absurd rfl hl
      | cons c cs => rfl
    have hne : l ++ b ≠ [] := by
      cases l with
      | nil => exact absurd rfl hl
      | cons c cs => simp
    rw [writeBatches, hstep, ih (l ++ b) hne]
    simp [List.flatten_cons, List.append_assoc]

/-- C8: a missing or empty destination gets a header row then the data
rows, an existing non-empty destination gets the data rows appended with
no header; hence `N ≥ 1` successive writes of `k` rows each onto a fresh
path leave exactly one header row followed by `N * k` data rows. -/
theorem c8_append_semantics {Row : Type} (header : Row) (rows content : List Row)
    (batches : List (List Row)) (k : Nat)
    (hk : ∀ b ∈ batches, b.length = k) (hne : batches ≠ []) :
    save_csv_write none header rows = header :: rows ∧
    save_csv_write (some []) header rows = header :: rows ∧
    (content ≠ [] → save_csv_write (some content) header rows = content ++ rows) ∧
    writeBatches header batches none = some (header :: batches.flatten) ∧
    (header :: batches.flatten).length = 1 + batches.length * k := by
  refine ⟨rfl, rfl, ?_, ?_, ?_⟩
  · intro hc
    cases content with
    | nil => exact absurd rfl hc
    | cons c cs => rfl
  · cases batches with
    | nil => exact absurd rfl hne
    | cons b rest =>
      have h1 : save_csv_write none header b = header :: b := rfl
      rw [writeBatches, h1, writeBatches_acc header rest (header :: b) (by simp)]
      simp [List.flatten_cons]
  · simp [flatten_length_uniform batches k hk, Nat.add_comm]

/-- Witness for C8: two writes of two rows each produce a five-line file
with the header first. -/
theorem c8_append_semantics_witness :
    writeBatches (0 : Nat) [[1, 2], [3, 4]] none = some [0, 1, 2, 3, 4] ∧
    ([0, 1, 2, 3, 4] : List Nat).length = 1 + 2 * 2 := by
  have h := c8_append_semantics (0 : Nat) [] [] [[1, 2], [3, 4]] 2
    (by decide) (by decide)
  exact ⟨by rw [h.2.2.2.1]; rfl, by decide⟩

/-! ### C4: pricing quantities and prices (corrected)

The claim reads the prices as "the cells of the first body row"; the
source takes `price_row.find_all('th')`, i.e. only the header-type cells
of that row (its comment "Skip the first cell" is not what the code
does — nothing is skipped).  On a row that is all `th` the two readings
agree; a row containing a `td` cell separates them. -/

/-- The prices exactly as the C4 claim words them: every cell of the
first body row, normalized, first cell not skipped. -/
def pricesPerClaimC4 (t : PriceTable) : List String :=
  match t.tbody with
  | none => []
  | some rows =>
    match rows.head? with
    | none => []
    | some row => row.map normCell

/-- Concrete pricing table whose first body row mixes `td` and `th`. -/
def tableMixedRow : PriceTable :=
  ⟨some [⟨true, "Quantity"⟩, ⟨true, "100"⟩],
   some [[⟨false, "Setup"⟩, ⟨true, " 1.00 "⟩]]⟩

/-- C4 as stated is false: on `tableMixedRow` the code's prices are not
the cells of the first body row. -/
theorem c4_counterexample :
    pricesPerClaimC4 tableMixedRow = ["Setup", "1.00"] ∧
    (extract_pricing (some tableMixedRow)).prices = ["1.00"] ∧
    (extract_pricing (some tableMixedRow)).prices ≠ pricesPerClaimC4 tableMixedRow :=
  ⟨by decide, by decide, by decide⟩

/-- C4 (amended): quantities are the `thead`'s header cells minus the
first, normalized with `&nbsp;` stripped; prices are the header-type
(`th`) cells of the first body row, first cell NOT skipped, likewise
normalized.  When every cell of head and first row is `th` this reads
all of them. -/
theorem c4_pricing_extraction (t : PriceTable) (hd : List Cell)
    (rows : List (List Cell)) (row : List Cell)
    (hth : t.thead = some hd) (htb : t.tbody = some rows)
    (hrow : rows.head? = some row)
    (hhd : ∀ c ∈ hd, c.isTh = true) (hr : ∀ c ∈ row, c.isTh = true) :
    extract_pricing (some t) = ⟨(hd.drop 1).map normCell, row.map normCell⟩ := by
  have h1 : hd.filter (fun c => c.isTh) = hd := List.filter_eq_self.mpr hhd
  have h2 : row.filter (fun c => c.isTh) = row := List.filter_eq_self.mpr hr
  simp [extract_pricing, hth, htb, hrow, h1, h2]

/-- Concrete well-formed pricing table. -/
def tableAllTh : PriceTable :=
  ⟨some [⟨true, "Quantity"⟩, ⟨true, "100&nbsp;"⟩, ⟨true, "250"⟩],
   some [[⟨true, "Price (5C)"⟩, ⟨true, " 1.00 "⟩, ⟨true, "0.90"⟩]]⟩

/-- Witness for the amended C4: the first price cell is kept. -/
theorem c4_pricing_extraction_witness :
    extract_pricing (some tableAllTh) =
      ⟨["100", "250"], ["Price (5C)", "1.00", "0.90"]⟩ := by
  have h := c4_pricing_extraction tableAllTh
    [⟨true, "Quantity"⟩, ⟨true, "100&nbsp;"⟩, ⟨true, "250"⟩]
    [[⟨true, "Price (5C)"⟩, ⟨true, " 1.00 "⟩, ⟨true, "0.90"⟩]]
    [⟨true, "Price (5C)"⟩, ⟨true, " 1.00 "⟩, ⟨true, "0.90"⟩]
    rfl rfl rfl (by decide) (by decide)
  rw [h]; decide

/-! ### C1: the failure-policy contract (code bug)

The extractors themselves recover every fault, but a page carrying
neither root marker is classified `detail` and `parse_detail_page`
returns the empty dict; `display_data` then evaluates
`product['Pricing']` — a direct subscript — and the run dies with an
uncaught `KeyError` before writing, contradicting the policy that only a
fetch failure is externally observable.  (`save_to_csv` would raise the
same way at `data[0]['Pricing']`.)  A fetch failure, by contrast, ends
the run cleanly. -/

/-- Concrete page lacking both `#productListHolder` and `#productDetail`. -/
def pageNoRoots : Page := ⟨none, none, none⟩

/-- C1 evaluated at the failing input: the empty detail record does NOT
complete display and persistence — the run surfaces a `KeyError` — while
a fetch failure ends the run without writing, as claimed. -/
theorem c1_empty_detail_run_raises :
    parse_detail_page pageNoRoots = emptyDict ∧
    display_detail_record emptyDict = Except.error "KeyError: Pricing" ∧
    save_to_csv_detail [emptyDict] = Except.error "KeyError: Pricing" ∧
    scrape (some pageNoRoots) = Except.error "KeyError: Pricing" ∧
    scrape none = Except.ok RunOutcome.fetchFailed :=
  ⟨rfl, rfl, rfl, rfl, rfl⟩

/-! ### C3: the detail cross-product flattening -/

/-- C3: one output row per (imprint method, location) pair — the rows of
a record are exactly the cross-product images, each repeating the
record's SKU and item size and carrying the whole zipped pricing row
(which truncates to the shorter of quantities/prices); no methods, or a
method with no locations, contributes nothing. -/
theorem c3_detail_cross_product (sku itemSize : String)
    (areas : List ImprintMethod) (p : Pricing) :
    detail_rows_of ⟨some sku, some itemSize, some areas, some p⟩ =
      Except.ok (flattenDetail sku itemSize p areas) ∧
    (flattenDetail sku itemSize p areas).length =
      (areas.map fun a => a.locations.length).sum ∧
    (∀ r : DetailRow, r ∈ flattenDetail sku itemSize p areas ↔
      ∃ a, a ∈ areas ∧ ∃ l, l ∈ a.locations ∧
        r = ⟨sku, itemSize, a.method, l.location, l.width, l.height,
             p.quantities.zip p.prices⟩) ∧
    (areas = [] → flattenDetail sku itemSize p areas = []) ∧
    (p.quantities.zip p.prices).length =
      min p.quantities.length p.prices.length := by
  refine ⟨rfl, ?_, ?_, ?_, ?_⟩
  · induction areas with
    | nil => rfl
    | cons a as ih => simp [flattenDetail, ih]
  · intro r
    induction areas with
    | nil => simp [flattenDetail]
    | cons a as ih =>
      simp only [flattenDetail, List.mem_append, List.mem_map, ih,
        List.mem_cons]
      constructor
      · rintro (⟨l, hl, rfl⟩ | ⟨a2, ha2, l, hl, rfl⟩)
        · exact ⟨a, Or.inl rfl, l, hl, rfl⟩
        · exact ⟨a2, Or.inr ha2, l, hl, rfl⟩
      · rintro ⟨a2, ha2 | ha2, l, hl, rfl⟩
        · subst ha2
          exact Or.inl ⟨l, hl, rfl⟩
        · exact Or.inr ⟨a2, ha2, l, hl, rfl⟩
  · rintro rfl
    rfl
  · simp [List.length_zip p.quantities p.prices]

/-- Concrete detail record: two methods with 2 and 0 locations, plus a
third with 1; pricing has 3 quantities but only 2 prices. -/
def areasC3 : List ImprintMethod :=
  [⟨"Silk Screen", [⟨"Front", "12", "8"⟩, ⟨"Back", "5", "4"⟩]⟩,
   ⟨"Laser", []⟩,
   ⟨"Pad", [⟨"Front", "12", "8"⟩]⟩]

/-- Concrete pricing with mismatched lengths. -/
def pricingC3 : Pricing := ⟨["100", "250", "500"], ["1.00", "0.90"]⟩

/-- Witness for C3: 2 + 0 + 1 rows, writer accepts the record. -/
theorem c3_detail_cross_product_witness :
    detail_rows_of ⟨some "SKU9", some "9 x 12", some areasC3, some pricingC3⟩ =
      Except.ok (flattenDetail "SKU9" "9 x 12" pricingC3 areasC3) ∧
    (flattenDetail "SKU9" "9 x 12" pricingC3 areasC3).length = 3 ∧
    (pricingC3.quantities.zip pricingC3.prices).length = 2 := by
  have h := c3_detail_cross_product "SKU9" "9 x 12" areasC3 pricingC3
  exact ⟨h.1, by rw [h.2.1]; decide, by decide⟩

/-! ### C2: a location row is kept iff its size parses -/

/-- C2: on the selected (third) table with both header labels resolved,
the retained locations are exactly the filter-map of the data rows; a
row contributes an entry iff it has enough columns and the Size Parser
extracts a (non-empty) width and height from its size cell; a retained
entry carries those parsed values verbatim — never a sentinel. -/
theorem c2_location_included_iff (pm : PrintMethods) (cid : String)
    (sec : CollapseSection) (t : LocTable) (li si : Nat)
    (hsec : lookupCollapse pm.collapses (stripHash cid) = some sec)
    (h3 : ¬ sec.tables.length < 3)
    (ht : sec.tables.getD 2 locTableEmpty = t)
    (hloc : (t.headers.map fun x => strToLower (pyStrip x)).contains "location" = true)
    (hsize : (t.headers.map fun x => strToLower (pyStrip x)).contains "size" = true)
    (hli : listIndexOf "location" (t.headers.map fun x => strToLower (pyStrip x)) = li)
    (hsi : listIndexOf "size" (t.headers.map fun x => strToLower (pyStrip x)) = si) :
    extract_locations pm cid = (t.rows.drop 1).filterMap (rowLoc li si) ∧
    (∀ row : List String, (rowLoc li si row).isSome = true ↔
      (max li si < row.length ∧ ∃ w hgt : String,
        extract_size (extract_text (some ⟨[], row.getD si ""⟩)) = (some w, some hgt) ∧
        w ≠ "" ∧ hgt ≠ "")) ∧
    (∀ (row : List String) (loc : Location), rowLoc li si row = some loc →
      extract_size (extract_text (some ⟨[], row.getD si ""⟩)) =
        (some loc.width, some loc.height) ∧
      loc.location = extract_text (some ⟨[], row.getD li ""⟩)) := by
  refine ⟨?_, ?_, ?_⟩
  · simp only [extract_locations, hsec]
    rw [if_neg h3]
    simp only [ht, hloc, hsize, hli, hsi, Bool.and_self, if_true]
  · intro row
    by_cases hlen : max li si < row.length
    · rcases hE : extract_size (extract_text (some ⟨[], row.getD si ""⟩)) with ⟨o1, o2⟩
      simp only [rowLoc]
      rw [if_pos hlen, hE]
      rcases o1 with _ | w
      · simp [mkLocIfParsed, hlen]
      · rcases o2 with _ | hgt
        · simp [mkLocIfParsed, hlen]
        · by_cases hw : w = "" ∨ hgt = ""
          · rcases hw with hw | hw <;> subst hw <;> simp [mkLocIfParsed, hlen]
          · obtain ⟨hw1, hw2⟩ := not_or.mp hw
            simp only [mkLocIfParsed, if_neg hw, Option.isSome_some, true_iff]
            exact ⟨hlen, w, hgt, rfl, hw1, hw2⟩
    · simp only [rowLoc]
      rw [if_neg hlen]
      simp [hlen]
  · intro row loc hrow
    by_cases hlen : max li si < row.length
    · rcases hE : extract_size (extract_text (some ⟨[], row.getD si ""⟩)) with ⟨o1, o2⟩
      simp only [rowLoc] at hrow
      rw [if_pos hlen, hE] at hrow
      rcases o1 with _ | w
      · simp [mkLocIfParsed] at hrow
      · rcases o2 with _ | hgt
        · simp [mkLocIfParsed] at hrow
        · by_cases hw : w = "" ∨ hgt = ""
          · simp [mkLocIfParsed, hw] at hrow
          · simp only [mkLocIfParsed, if_neg hw, Option.some.injEq] at hrow
            subst hrow
            exact ⟨rfl, rfl⟩
    · simp only [rowLoc] at hrow
      rw [if_neg hlen] at hrow
      simp at hrow

/-- Concrete third table: a header row, one parseable data row, one
unparseable one, and one too-short one. -/
def locTableC2 : LocTable :=
  ⟨["Location", " Size "],
   [["ignored header row"], ["Front", "12\" x 8\""], ["Back", "garbage"], ["Side"]]⟩

/-- Concrete collapse section owning `locTableC2` as its third table. -/
def secC2 : CollapseSection := ⟨[locTableEmpty, locTableEmpty, locTableC2]⟩

/-- Concrete `div#printMethods` with one panel. -/
def pmC2 : PrintMethods :=
  ⟨[⟨some ⟨⟨[], "Silk Screen "⟩, "#collapse0"⟩⟩], [("collapse0", secC2)]⟩

/-- Witness for C2 at the concrete section. -/
theorem c2_location_included_iff_witness :
    extract_locations pmC2 "#collapse0" =
      (locTableC2.rows.drop 1).filterMap (rowLoc 0 1) :=
  (c2_location_included_iff pmC2 "#collapse0" secC2 locTableC2 0 1 rfl
    (by decide) rfl (by decide) (by decide) (by decide) (by decide)).1

/-! ### C5: the Size Parser -/

theorem takeDigits_decomp (l : List Char) :
    (takeDigits l).1 ++ (takeDigits l).2 = l := by
  induction l with
  | nil => rfl
  | cons c cs ih =>
    by_cases hc : c.isDigit
    · simp [takeDigits, hc, ih]
    · simp [takeDigits, hc]

theorem takeDigits_all (l : List Char) :
    ∀ c ∈ (takeDigits l).1, c.isDigit = true := by
  induction l with
  | nil => intro c hc; simp [takeDigits] at hc
  | cons c cs ih =>
    by_cases hc : c.isDigit
    · intro d hd
      simp only [takeDigits, hc, if_true, List.mem_cons] at hd
      rcases hd with rfl | hd
      · exact hc
      · exact ih d hd
    · intro d hd
      simp [takeDigits, hc] at hd

theorem takeNumber_decomp (cs n r : List Char) (h : takeNumber cs = some (n, r)) :
    cs = n ++ r ∧ n ≠ [] ∧ ∀ c ∈ n, isNumChar c = true := by
  have hdec := takeDigits_decomp cs
  have hall := takeDigits_all cs
  unfold takeNumber at h
  rcases hds : takeDigits cs with ⟨ds, rest⟩
  rw [hds] at h hdec hall
  simp only at hdec hall
  cases ds with
  | nil => simp [takeNumberAux] at h
  | cons d ds2 =>
    cases rest with
    | nil =>
      simp only [takeNumberAux, Option.some.injEq, Prod.mk.injEq] at h
      obtain ⟨rfl, rfl⟩ := h
      exact ⟨hdec.symm, by simp,
        fun c hc => by simp [isNumChar, hall c hc]⟩
    | cons r0 rs =>
      by_cases hr0 : r0 = '.'
      · simp only [takeNumberAux] at h
        rw [if_pos hr0] at h
        have hdec2 := takeDigits_decomp rs
        have hall2 := takeDigits_all rs
        rcases hds2 : takeDigits rs with ⟨fs, rest2⟩
        rw [hds2] at h hdec2 hall2
        simp only at hdec2 hall2
        cases fs with
        | nil =>
          simp only [takeNumberFrac, Option.some.injEq, Prod.mk.injEq] at h
          obtain ⟨rfl, rfl⟩ := h
          exact ⟨hdec.symm, by simp,
            fun c hc => by simp [isNumChar, hall c hc]⟩
        | cons f fs2 =>
          simp only [takeNumberFrac, Option.some.injEq, Prod.mk.injEq] at h
          obtain ⟨rfl, rfl⟩ := h
          refine ⟨?_, by simp, ?_⟩
          · subst hr0
            rw [← hdec, ← hdec2]
            simp
          · intro c hc
            simp only [List.mem_append, List.mem_cons] at hc
            rcases hc with hc | hc | hc
            · simp [isNumChar, hall c (by simp [hc])]
            · subst hc hr0
              simp [isNumChar]
            · have hcf : c ∈ f :: fs2 := List.mem_cons.mpr hc
              simp [isNumChar, hall2 c hcf]
      · simp only [takeNumberAux] at h
        rw [if_neg hr0] at h
        simp only [Option.some.injEq, Prod.mk.injEq] at h
        obtain ⟨rfl, rfl⟩ := h
        exact ⟨hdec.symm, by simp,
          fun c hc => by simp [isNumChar, hall c hc]⟩

theorem skipQuote_suffix_decomp (l : List Char) : ∃ t, l = t ++ skipQuote l := by
  cases l with
  | nil => exact ⟨[], rfl⟩
  | cons c cs =>
    by_cases hq : isQuoteChar c
    · exact ⟨[c], by simp [skipQuote, hq]⟩
    · exact ⟨[], by simp [skipQuote, hq]⟩

theorem matchSizeAt_spec (cs : List Char) (ws hs : String)
    (h : matchSizeAt cs = some (ws, hs)) :
    (∃ r, cs = ws.data ++ r) ∧ ws.data ≠ [] ∧
    (∀ c ∈ ws.data, isNumChar c = true) ∧
    (∃ pre suf, cs = pre ++ hs.data ++ suf) ∧ hs.data ≠ [] ∧
    (∀ c ∈ hs.data, isNumChar c = true) := by
  unfold matchSizeAt at h
  rcases htn : takeNumber cs with _ | ⟨w, r1⟩
  · rw [htn] at h; simp [matchSizeAtAux] at h
  · rw [htn] at h
    simp only [matchSizeAtAux] at h
    obtain ⟨hcs, hwne, hwall⟩ := takeNumber_decomp cs w r1 htn
    rcases hr4 : skipSpaces (skipQuote (skipSpaces r1)) with _ | ⟨x, r5⟩
    · rw [hr4] at h; simp [matchAtX] at h
    · rw [hr4] at h
      simp only [matchAtX] at h
      by_cases hx : (x = 'x' || x = 'X') = true
      · rw [if_pos hx] at h
        rcases htn2 : takeNumber (skipSpaces r5) with _ | ⟨hh, rest⟩
        · rw [htn2] at h; simp [matchAfterX] at h
        · rw [htn2] at h
          simp only [matchAfterX, Option.some.injEq, Prod.mk.injEq] at h
          obtain ⟨rfl, rfl⟩ := h
          obtain ⟨hcs2, hhne, hhall⟩ :=
            takeNumber_decomp (skipSpaces r5) hh rest htn2
          obtain ⟨ta, hta⟩ := dropWhile_suffix_decomp isPySpace r1
          obtain ⟨tb, htb⟩ := skipQuote_suffix_decomp (skipSpaces r1)
          obtain ⟨tc, htc⟩ := dropWhile_suffix_decomp isPySpace (skipQuote (skipSpaces r1))
          obtain ⟨td, htd⟩ := dropWhile_suffix_decomp isPySpace r5
          refine ⟨⟨r1, hcs⟩, hwne, hwall, ?_, hhne, hhall⟩
          refine ⟨w ++ ta ++ tb ++ tc ++ (x :: td), rest, ?_⟩
          have h5 : r5 = td ++ (hh ++ rest) := by rw [← hcs2]; exact htd
          have h4 : skipQuote (skipSpaces r1) = tc ++ (x :: r5) := by
            rw [← hr4]; exact htc
          have h1 : r1 = ta ++ (tb ++ (tc ++ (x :: r5))) := by
            rw [← h4, ← htb]; exact hta
          rw [hcs, h1, h5]
          simp
      · rw [if_neg hx] at h
        simp at h

theorem searchSize_decomp (l : List Char) (ws hs : String)
    (h : searchSize l = some (ws, hs)) :
    ∃ pre t, l = pre ++ t ∧ matchSizeAt t = some (ws, hs) := by
  induction l with
  | nil => simp [searchSize] at h
  | cons c cs ih =>
    unfold searchSize at h
    rcases hm : matchSizeAt (c :: cs) with _ | r
    · rw [hm] at h
      simp only [firstSome] at h
      obtain ⟨pre, t, hpt, hmt⟩ := ih h
      exact ⟨c :: pre, t, by simp [hpt], hmt⟩
    · rw [hm] at h
      simp only [firstSome, Option.some.injEq] at h
      exact ⟨[], c :: cs, rfl, by rw [hm, h]⟩

theorem listStartsWith_self_append (pat t : List Char) :
    listStartsWith pat (pat ++ t) = true := by
  induction pat with
  | nil => rfl
  | cons c cs ih => simp [listStartsWith, ih]

theorem containsAux_of_decomp (pat pre suf : List Char) :
    containsAux pat (pre ++ (pat ++ suf)) = true := by
  induction pre with
  | nil =>
    cases hps : pat ++ suf with
    | nil =>
      have hp : pat = [] := by cases pat <;> simp_all
      simp [containsAux, hps, hp]
    | cons c cs =>
      have h1 : listStartsWith pat (c :: cs) = true :=
        hps ▸ listStartsWith_self_append pat suf
      simp [containsAux, hps, h1]
  | cons c pre2 ih =>
    simp [containsAux, ih]

theorem strContains_of_decomp (s pat : String) (pre suf : List Char)
    (h : s.data = pre ++ pat.data ++ suf) : strContains s pat = true := by
  unfold strContains
  rw [h, List.append_assoc]
  exact containsAux_of_decomp pat.data pre suf

/-- C5: the Size Parser's contract — the spec's three sample inputs
evaluate as given; a string the pattern does not match anywhere yields
the absent pair (and the function is total, so it never raises); on a
match the two captured groups are returned verbatim: non-empty
digits-and-dot substrings of the input, not reparsed. -/
theorem c5_size_parsing :
    extract_size "12\" x 8\"" = (some "12", some "8") ∧
    extract_size "12.5 X 8" = (some "12.5", some "8") ∧
    extract_size "garbage" = (none, none) ∧
    (∀ s : String, searchSize s.data = none → extract_size s = (none, none)) ∧
    (∀ s w hgt : String, extract_size s = (some w, some hgt) →
      w ≠ "" ∧ hgt ≠ "" ∧ (∀ c ∈ w.data, isNumChar c = true) ∧
      (∀ c ∈ hgt.data, isNumChar c = true) ∧
      strContains s w = true ∧ strContains s hgt = true) := by
  refine ⟨by decide, by decide, by decide, ?_, ?_⟩
  · intro s h
    simp [extract_size, h, sizePairOf]
  · intro s w hgt h
    unfold extract_size at h
    rcases hse : searchSize s.data with _ | ⟨ws, hs⟩
    · rw [hse] at h; simp [sizePairOf] at h
    · rw [hse] at h
      simp only [sizePairOf, Prod.mk.injEq, Option.some.injEq] at h
      obtain ⟨rfl, rfl⟩ := h
      obtain ⟨pre, t, hpt, hmt⟩ := searchSize_decomp s.data ws hs hse
      obtain ⟨⟨r, hr⟩, hwne, hwall, ⟨pre2, suf2, hps⟩, hhne, hhall⟩ :=
        matchSizeAt_spec t ws hs hmt
      have hwdata : s.data = pre ++ ws.data ++ r := by
        rw [hpt, hr, List.append_assoc]
      have hhdata : s.data = (pre ++ pre2) ++ hs.data ++ suf2 := by
        rw [hpt, hps]
        simp [List.append_assoc]
      refine ⟨?_, ?_, hwall, hhall,
        strContains_of_decomp s ws pre r hwdata,
        strContains_of_decomp s hs (pre ++ pre2) suf2 hhdata⟩
      · intro hw
        rw [hw] at hwne
        exact hwne rfl
      · intro hh
        rw [hh] at hhne
        exact hhne rfl

/-- Witness for C5's verbatim-groups clause at `"12 x 8"`. -/
theorem c5_size_parsing_witness :
    ("12" : String) ≠ "" ∧ ("8" : String) ≠ "" ∧
    (∀ c ∈ ("12" : String).data, isNumChar c = true) ∧
    (∀ c ∈ ("8" : String).data, isNumChar c = true) ∧
    strContains "12 x 8" "12" = true ∧ strContains "12 x 8" "8" = true :=
  c5_size_parsing.2.2.2.2 "12 x 8" "12" "8" (by decide)

end Scraper
